import Mathlib

/-!
# Voroboids: verification of the spec against the source

Shallow embedding of the Voroboids simulation core (TypeScript repository
LennartvdM/Voroboids).  Coordinates are modelled as exact rationals; the
irrational primitives of the JS runtime (Math.sqrt, Math.cos, Math.sin,
Math.PI) are passed as explicit function/constant parameters, so every
definition stays computable and the algebraic structure of the source is
preserved exactly.

The snapshot contains several generations of the agent implementation.  The
newest orchestrator (src/voroboids-system.ts) imports a Voroboid class with a
six-argument update, a static resolveCollisions and a three-argument
computePolygon taking the wall list; that file is absent from the snapshot
(only its callers and the polarity/physics declarations survive), so those
parts are modelled from the spec and are marked as such in their doc strings.
Everything else is translated line by line from src/math.ts and
src/voroboid.ts.
-/

namespace Voroboids

/-- Two-dimensional vector with exact rational coordinates (src/math.ts `Vec2`). -/
structure Vec2 where
  x : ℚ
  y : ℚ
  deriving DecidableEq, Repr

/-- Constructor `vec2(x, y)` from src/math.ts. -/
def vec2 (x y : ℚ) : Vec2 := ⟨x, y⟩

/-- Vector addition (src/math.ts `add`). -/
def add (a b : Vec2) : Vec2 := ⟨a.x + b.x, a.y + b.y⟩

/-- Vector subtraction (src/math.ts `sub`). -/
def sub (a b : Vec2) : Vec2 := ⟨a.x - b.x, a.y - b.y⟩

/-- Scalar multiplication (src/math.ts `mul`). -/
def mul (v : Vec2) (scalar : ℚ) : Vec2 := ⟨v.x * scalar, v.y * scalar⟩

/-- Guarded scalar division (src/math.ts `div`): returns the zero vector when
the scalar is zero. -/
def div (v : Vec2) (scalar : ℚ) : Vec2 :=
  if scalar ≠ 0 then ⟨v.x / scalar, v.y / scalar⟩ else ⟨0, 0⟩

/-- Dot product (src/math.ts `dot`). -/
def dot (a b : Vec2) : ℚ := a.x * b.x + a.y * b.y

/-- Euclidean norm (src/math.ts `magnitude`).  `S` is the square-root oracle
standing for Math.sqrt; it is applied to the exact squared norm. -/
def magnitude (S : ℚ → ℚ) (v : Vec2) : ℚ := S (v.x * v.x + v.y * v.y)

/-- Unit vector (src/math.ts `normalize`): zero vector when the magnitude is
not positive. -/
def normalize (S : ℚ → ℚ) (v : Vec2) : Vec2 :=
  if 0 < magnitude S v then div v (magnitude S v) else ⟨0, 0⟩

/-- Cap a vector to a maximum magnitude (src/math.ts `limit`). -/
def limit (S : ℚ → ℚ) (v : Vec2) (maxMag : ℚ) : Vec2 :=
  if maxMag < magnitude S v then mul (normalize S v) maxMag else v

/-- Scalar linear interpolation (src/math.ts `lerp`). -/
def lerp (a b t : ℚ) : ℚ := a + (b - a) * t

/-- Componentwise linear interpolation (src/math.ts `lerpVec2`). -/
def lerpVec2 (a b : Vec2) (t : ℚ) : Vec2 := ⟨lerp a.x b.x t, lerp a.y b.y t⟩

/-- Clamp a value to an interval (src/math.ts `clamp`). -/
def clamp (value lo hi : ℚ) : ℚ := max lo (min hi value)

/-- Closest point on a segment and the distance to it (src/math.ts
`pointToSegment`).  The division by the squared segment length happens only
behind the `lenSq = 0` guard, exactly as in the source. -/
def pointToSegment (S : ℚ → ℚ) (p a b : Vec2) : Vec2 × ℚ :=
  let ab := sub b a
  let ap := sub p a
  let lenSq := ab.x * ab.x + ab.y * ab.y
  if lenSq = 0 then
    (a, magnitude S ap)
  else
    let t := clamp ((ap.x * ab.x + ap.y * ab.y) / lenSq) 0 1
    let closest := vec2 (a.x + t * ab.x) (a.y + t * ab.y)
    (closest, magnitude S (sub p closest))

/-- Signed shoelace area (src/math.ts `polygonArea`): zero for fewer than three
vertices. -/
def polygonArea (polygon : List Vec2) : ℚ :=
  if polygon.length < 3 then 0
  else
    ((polygon.zip (polygon.rotate 1)).map
      (fun cn => cn.1.x * cn.2.y - cn.2.x * cn.1.y)).foldl (fun a b => a + b) 0 / 2

/-- Sutherland-Hodgman half-plane clip (src/math.ts `clipPolygonByPlane`).
Keeps the side where `dot(vertex - planePoint, planeNormal) ≤ 0`; polygons
with fewer than three vertices are returned unchanged.  The index loop with
wraparound `(i+1) % n` is rendered as a zip with the left rotation. -/
def clipPolygonByPlane (polygon : List Vec2) (planePoint planeNormal : Vec2) : List Vec2 :=
  if polygon.length < 3 then polygon
  else
    ((polygon.zip (polygon.rotate 1)).map (fun cn =>
      let currentDist := dot (sub cn.1 planePoint) planeNormal
      let nextDist := dot (sub cn.2 planePoint) planeNormal
      (if currentDist ≤ 0 then [cn.1] else []) ++
      (if (0 < currentDist ∧ nextDist < 0) ∨ (currentDist < 0 ∧ 0 < nextDist) then
        [lerpVec2 cn.1 cn.2 (currentDist / (currentDist - nextDist))]
      else []))).flatten

/-- Axis-aligned rectangle polygon (src/math.ts `rectToPolygon`). -/
def rectToPolygon (x y width height : ℚ) : List Vec2 :=
  [vec2 x y, vec2 (x + width) y, vec2 (x + width) (y + height), vec2 x (y + height)]

/-- Circle approximated by a polygon (src/math.ts `circleToPolygon`).  `piQ`
stands for Math.PI and `cosF`/`sinF` for Math.cos/Math.sin. -/
def circleToPolygon (piQ : ℚ) (cosF sinF : ℚ → ℚ) (center : Vec2) (radius : ℚ)
    (segments : ℕ) : List Vec2 :=
  (List.range segments).map (fun (i : ℕ) =>
    let angle := ((i : ℚ) / (segments : ℚ)) * piQ * 2
    vec2 (center.x + cosF angle * radius) (center.y + sinF angle * radius))

/-- Linearity of the clip distance along an interpolated edge. -/
theorem dot_sub_lerpVec2 (a b pp n : Vec2) (t : ℚ) :
    dot (sub (lerpVec2 a b t) pp) n
      = (1 - t) * dot (sub a pp) n + t * dot (sub b pp) n := by
  simp only [dot, sub, lerpVec2, lerp]
  ring

/-- Vertices emitted by a genuine clip all satisfy the kept-side inequality:
originals are only kept when their distance is nonpositive, and emitted
intersection points sit exactly on the plane. -/
theorem clip_mem_le (polygon : List Vec2) (pp n : Vec2)
    (h3 : ¬ polygon.length < 3) :
    ∀ v ∈ clipPolygonByPlane polygon pp n, dot (sub v pp) n ≤ 0 := by
  intro v hv
  unfold clipPolygonByPlane at hv
  rw [if_neg h3] at hv
  rcases List.mem_flatten.mp hv with ⟨l, hl, hvl⟩
  rcases List.mem_map.mp hl with ⟨cn, _hcn, rfl⟩
  set dc := dot (sub cn.1 pp) n with hdc
  set dn := dot (sub cn.2 pp) n with hdn
  rcases List.mem_append.mp hvl with hkeep | hcross
  · by_cases hle : dc ≤ 0
    · rw [if_pos hle] at hkeep
      rcases List.mem_singleton.mp hkeep with rfl
      exact hle
    · rw [if_neg hle] at hkeep
      exact absurd hkeep (List.not_mem_nil v)
  · by_cases hc : (0 < dc ∧ dn < 0) ∨ (dc < 0 ∧ 0 < dn)
    · rw [if_pos hc] at hcross
      rcases List.mem_singleton.mp hcross with rfl
      have hne : dc - dn ≠ 0 := by
        rcases hc with ⟨h1, h2⟩ | ⟨h1, h2⟩ <;> intro h0 <;> nlinarith
      have hz : dot (sub (lerpVec2 cn.1 cn.2 (dc / (dc - dn))) pp) n = 0 := by
        rw [dot_sub_lerpVec2, ← hdc, ← hdn]
        field_simp
        ring
      exact le_of_eq hz
    · rw [if_neg hc] at hcross
      exact absurd hcross (List.not_mem_nil v)

/-- Join of pointwise singletons is a plain map. -/
theorem join_map_singleton {α β : Type} (l : List α) (f : α → β) :
    (l.map (fun a => [f a])).flatten = l.map f := by
  induction l with
  | nil => rfl
  | cons a l ih => simp [ih]

/-- When every vertex already lies on the kept side the clip is the identity:
no vertex is dropped and no intersection is emitted. -/
theorem clip_all_inside (polygon : List Vec2) (pp n : Vec2)
    (h : ∀ v ∈ polygon, dot (sub v pp) n ≤ 0) :
    clipPolygonByPlane polygon pp n = polygon := by
  unfold clipPolygonByPlane
  split
  · rfl
  · have hmap : (polygon.zip (polygon.rotate 1)).map (fun cn =>
        let currentDist := dot (sub cn.1 pp) n
        let nextDist := dot (sub cn.2 pp) n
        (if currentDist ≤ 0 then [cn.1] else []) ++
        (if (0 < currentDist ∧ nextDist < 0) ∨ (currentDist < 0 ∧ 0 < nextDist) then
          [lerpVec2 cn.1 cn.2 (currentDist / (currentDist - nextDist))]
        else []))
        = (polygon.zip (polygon.rotate 1)).map (fun cn => [cn.1]) := by
      apply List.map_congr_left
      intro cn hcn
      have hmem := List.of_mem_zip hcn
      have h1 : dot (sub cn.1 pp) n ≤ 0 := h _ hmem.1
      have h2 : dot (sub cn.2 pp) n ≤ 0 := h _ ((List.mem_rotate).mp hmem.2)
      have hcross : ¬ ((0 < dot (sub cn.1 pp) n ∧ dot (sub cn.2 pp) n < 0) ∨
          (dot (sub cn.1 pp) n < 0 ∧ 0 < dot (sub cn.2 pp) n)) := by
        rintro (⟨ha, _⟩ | ⟨_, hb⟩) <;> linarith
      simp only [if_pos h1, if_neg hcross, List.append_nil]
    rw [hmap, join_map_singleton]
    exact List.map_fst_zip _ _ (by rw [List.length_rotate])

/-- C7: `clipPolygonByPlane` applied twice with the same plane point and
normal returns the result of the single application unchanged; in exact
rational arithmetic every vertex of the first output satisfies
`dot(vertex - planePoint, planeNormal) ≤ 0`, so the second pass keeps every
vertex and emits no intersection. -/
theorem claim7_clip_idempotent (polygon : List Vec2) (pp n : Vec2) :
    clipPolygonByPlane (clipPolygonByPlane polygon pp n) pp n
      = clipPolygonByPlane polygon pp n := by
  by_cases h3 : polygon.length < 3
  · have h : clipPolygonByPlane polygon pp n = polygon := by
      unfold clipPolygonByPlane
      rw [if_pos h3]
    rw [h, h]
  · exact clip_all_inside _ pp n (clip_mem_le polygon pp n h3)

/-- C8: on a degenerate segment (`a == b`) `pointToSegment` takes the guarded
branch and returns the endpoint itself together with `magnitude (p - a)`; the
division by the squared segment length is never executed. -/
theorem claim8_pointToSegment_degenerate (S : ℚ → ℚ) (p a : Vec2) :
    pointToSegment S p a a = (a, magnitude S (sub p a)) := by
  unfold pointToSegment
  simp [sub]

/-- Agent configuration (src/types.ts `VoroboidConfig`).  The rendering-only
fields (color, content) are omitted; they never influence the simulation. -/
structure VoroboidConfig where
  id : ℤ
  weight : ℚ
  deriving DecidableEq, Repr

/-- Simulation-relevant state of an agent (src/voroboid.ts class fields).
The rendering and wobble fields are omitted. -/
structure Voroboid where
  id : ℤ
  weight : ℚ
  position : Vec2
  velocity : Vec2
  blobRadius : ℚ
  polygon : List Vec2
  targetArea : ℚ
  currentArea : ℚ
  pressure : ℚ
  deriving DecidableEq, Repr

/-- Agent constructor (src/voroboid.ts lines 43-61): stores the configured
weight unchanged, zeroes position and velocity, keeps the field default
blobRadius = 25 and derives targetArea = Math.PI * blobRadius^2 * weight.
`piQ` stands for Math.PI.  The source performs no validation or clamping of
weight or blobRadius. -/
def mkVoroboid (piQ : ℚ) (config : VoroboidConfig) : Voroboid :=
  { id := config.id
    weight := config.weight
    position := vec2 0 0
    velocity := vec2 0 0
    blobRadius := 25
    polygon := []
    targetArea := piQ * 25 * 25 * config.weight
    currentArea := 0
    pressure := 1 }

/-- Fallback polygon (src/voroboid.ts `getFallbackPolygon`): a regular
eight-vertex polygon of radius blobRadius around the position. -/
def getFallbackPolygon (piQ : ℚ) (cosF sinF : ℚ → ℚ) (position : Vec2) (r : ℚ) : List Vec2 :=
  (List.range 8).map (fun (i : ℕ) =>
    let angle := ((i : ℚ) / 8) * piQ * 2
    vec2 (position.x + cosF angle * r) (position.y + sinF angle * r))

/-- Per-edge lengths with wraparound (the per-segment length values built by
src/voroboid.ts `resamplePolygon`). -/
def segLengths (S : ℚ → ℚ) (polygon : List Vec2) : List ℚ :=
  (polygon.zip (polygon.rotate 1)).map (fun cn => magnitude S (sub cn.2 cn.1))

/-- Cumulative perimeter length before each edge (the per-segment cumulative
values built by src/voroboid.ts `resamplePolygon`). -/
def cumLengths (lens : List ℚ) : List ℚ :=
  (List.range lens.length).map (fun i => (lens.take i).foldl (fun a b => a + b) 0)

/-- Index search of src/voroboid.ts `resamplePolygon`: the last index whose
cumulative length is at most the target distance, scanning from the end and
defaulting to 0. -/
def findSegIdx (cums : List ℚ) (targetDist : ℚ) : ℕ :=
  match (List.range cums.length).reverse.find? (fun j => decide (cums.getD j 0 ≤ targetDist)) with
  | some j => j
  | none => 0

/-- Perimeter resampling (src/voroboid.ts `resamplePolygon`): early return for
an empty polygon or a target count below 3, copies of the first vertex for a
degenerate perimeter, otherwise equally spaced samples interpolated inside
the segment found for each distance. -/
def resamplePolygon (S : ℚ → ℚ) (polygon : List Vec2) (targetCount : ℕ) : List Vec2 :=
  if polygon.length = 0 ∨ targetCount < 3 then polygon
  else
    let lens := segLengths S polygon
    let totalLength := lens.foldl (fun a b => a + b) 0
    if totalLength = 0 then
      (List.range targetCount).map (fun _ => polygon.getD 0 (vec2 0 0))
    else
      let cums := cumLengths lens
      let step := totalLength / (targetCount : ℚ)
      (List.range targetCount).map (fun (i : ℕ) =>
        let targetDist := (i : ℚ) * step
        let segIdx := findSegIdx cums targetDist
        let segStart := polygon.getD segIdx (vec2 0 0)
        let segEnd := polygon.getD ((segIdx + 1) % polygon.length) (vec2 0 0)
        let segLen := lens.getD segIdx 0
        let distIntoSeg := targetDist - cums.getD segIdx 0
        let t := if 0 < segLen then distIntoSeg / segLen else 0
        lerpVec2 segStart segEnd (min 1 (max 0 t)))

/-- Frame-to-frame polygon smoothing (src/voroboid.ts `smoothPolygon`):
target copied outright when no previous polygon exists, resample-then-lerp at
factor 0.3 while the vertex count changes, plain lerp at smoothingFactor 0.15
otherwise.  The JS per-vertex copies are the identity on pure values. -/
def smoothPolygon (S : ℚ → ℚ) (old target : List Vec2) : List Vec2 :=
  if old.length = 0 then target
  else if old.length ≠ target.length then
    let resampled := resamplePolygon S old target.length
    (List.range target.length).map (fun i =>
      lerpVec2 (resampled.getD i (vec2 0 0)) (target.getD i (vec2 0 0)) (3 / 10))
  else
    (List.range target.length).map (fun i =>
      lerpVec2 (old.getD i (vec2 0 0)) (target.getD i (vec2 0 0)) (15 / 100))

/-- Neighbor-bisector clipping loop of src/voroboid.ts `computePolygon`
(lines 345-375): skip self and neighbors beyond 6 x blobRadius, position the
bisector by the clamped pressure share, clip keeping this agent's side, and
on degeneration below three vertices substitute the fallback polygon and
stop. -/
def clipNeighborsLoop (S : ℚ → ℚ) (piQ : ℚ) (cosF sinF : ℚ → ℚ) (self : Voroboid) :
    List Vec2 → List Voroboid → List Vec2
  | polygon, [] => polygon
  | polygon, neighbor :: rest =>
    if neighbor.id = self.id then clipNeighborsLoop S piQ cosF sinF self polygon rest
    else if self.blobRadius * 6 < magnitude S (sub self.position neighbor.position) then
      clipNeighborsLoop S piQ cosF sinF self polygon rest
    else
      let myPressure := max (1 / 10) self.pressure
      let theirPressure := max (1 / 10) neighbor.pressure
      let pressureShare := myPressure / (myPressure + theirPressure)
      let bisectorPt := lerpVec2 self.position neighbor.position pressureShare
      let bisectorNormal := normalize S (sub neighbor.position self.position)
      let clipped := clipPolygonByPlane polygon bisectorPt bisectorNormal
      if clipped.length < 3 then getFallbackPolygon piQ cosF sinF self.position self.blobRadius
      else clipNeighborsLoop S piQ cosF sinF self clipped rest

/-- Container bounds record handed to computePolygon. -/
structure Bounds where
  x : ℚ
  y : ℚ
  width : ℚ
  height : ℚ
  deriving DecidableEq, Repr

/-- Voronoi-like polygon computation (src/voroboid.ts `computePolygon`, lines
336-387): seed with the container-bounds rectangle, clip against neighbor
bisectors, smooth toward the previous polygon, then set
currentArea = |polygonArea| and pressure = targetArea / currentArea when the
area is positive, else pressure = 1. -/
def computePolygon (S : ℚ → ℚ) (piQ : ℚ) (cosF sinF : ℚ → ℚ) (self : Voroboid)
    (neighbors : List Voroboid) (containerBounds : Bounds) : Voroboid :=
  let polygon0 := rectToPolygon containerBounds.x containerBounds.y
    containerBounds.width containerBounds.height
  let clipped := clipNeighborsLoop S piQ cosF sinF self polygon0 neighbors
  let smoothed := smoothPolygon S self.polygon clipped
  let area := |polygonArea smoothed|
  { self with
    polygon := smoothed
    currentArea := area
    pressure := if 0 < area then self.targetArea / area else 1 }

/-- Target-area refresh (src/voroboid.ts `updateTargetArea`, lines 490-492). -/
def updateTargetArea (piQ : ℚ) (self : Voroboid) : Voroboid :=
  { self with targetArea := piQ * self.blobRadius * self.blobRadius * self.weight }

/-- Length of the fallback polygon. -/
theorem getFallbackPolygon_length (piQ : ℚ) (cosF sinF : ℚ → ℚ) (position : Vec2) (r : ℚ) :
    (getFallbackPolygon piQ cosF sinF position r).length = 8 := by
  simp only [getFallbackPolygon, List.length_map, List.length_range]

/-- Resampling a nonempty polygon to at least three samples yields exactly the
requested count. -/
theorem resamplePolygon_length (S : ℚ → ℚ) (polygon : List Vec2) (targetCount : ℕ)
    (hne : polygon.length ≠ 0) (h3 : ¬ targetCount < 3) :
    (resamplePolygon S polygon targetCount).length = targetCount := by
  unfold resamplePolygon
  rw [if_neg (fun h => h.elim hne h3)]
  dsimp only
  split <;> simp

/-- Smoothing always returns as many vertices as the target polygon. -/
theorem smoothPolygon_length (S : ℚ → ℚ) (old target : List Vec2) :
    (smoothPolygon S old target).length = target.length := by
  unfold smoothPolygon
  split
  · rfl
  · split <;> simp

/-- The clipping loop preserves the at-least-three-vertices invariant: clips
that keep three or more vertices continue, anything smaller becomes the
eight-vertex fallback. -/
theorem clipNeighborsLoop_length (S : ℚ → ℚ) (piQ : ℚ) (cosF sinF : ℚ → ℚ)
    (self : Voroboid) (polygon : List Vec2) (neighbors : List Voroboid)
    (h : 3 ≤ polygon.length) :
    3 ≤ (clipNeighborsLoop S piQ cosF sinF self polygon neighbors).length := by
  induction neighbors generalizing polygon with
  | nil => simpa [clipNeighborsLoop] using h
  | cons neighbor rest ih =>
    unfold clipNeighborsLoop
    split
    · exact ih _ h
    · split
      · exact ih _ h
      · dsimp only
        split
        · rw [getFallbackPolygon_length]
          omega
        · next hlt => exact ih _ (by omega)

/-- C10: after every computePolygon call the stored polygon has at least three
vertices: the rectangle seed has four, any clip that degenerates below three
vertices is replaced by the eight-vertex fallback, and the
smoothing/resampling step preserves the target vertex count, so renderers
never observe a one- or two-vertex polygon after tessellation. -/
theorem claim10_polygon_min_vertices (S : ℚ → ℚ) (piQ : ℚ) (cosF sinF : ℚ → ℚ)
    (self : Voroboid) (neighbors : List Voroboid) (containerBounds : Bounds) :
    (rectToPolygon containerBounds.x containerBounds.y containerBounds.width
        containerBounds.height).length = 4 ∧
    (getFallbackPolygon piQ cosF sinF self.position self.blobRadius).length = 8 ∧
    3 ≤ (computePolygon S piQ cosF sinF self neighbors containerBounds).polygon.length := by
  refine ⟨rfl, getFallbackPolygon_length piQ cosF sinF self.position self.blobRadius, ?_⟩
  show 3 ≤ (smoothPolygon S self.polygon _).length
  rw [smoothPolygon_length]
  exact clipNeighborsLoop_length S piQ cosF sinF self _ neighbors (by simp [rectToPolygon])

/-- Projection identity read off the last lines of computePolygon: the stored
pressure is the guarded quotient of the stored targetArea by the freshly
stored currentArea. -/
theorem computePolygon_pressure_def (S : ℚ → ℚ) (piQ : ℚ) (cosF sinF : ℚ → ℚ)
    (self : Voroboid) (neighbors : List Voroboid) (containerBounds : Bounds) :
    (computePolygon S piQ cosF sinF self neighbors containerBounds).pressure
      = if 0 < (computePolygon S piQ cosF sinF self neighbors containerBounds).currentArea
        then (computePolygon S piQ cosF sinF self neighbors containerBounds).targetArea
          / (computePolygon S piQ cosF sinF self neighbors containerBounds).currentArea
        else 1 := rfl

/-- C4: computePolygon writes pressure = targetArea / currentArea exactly (no
clamping) whenever the recomputed currentArea is positive, and defaults the
pressure to 1 when the area degenerates to zero; targetArea itself is
Math.PI * blobRadius^2 * weight as set by updateTargetArea. -/
theorem claim4_pressure_exact (S : ℚ → ℚ) (piQ : ℚ) (cosF sinF : ℚ → ℚ)
    (self : Voroboid) (neighbors : List Voroboid) (containerBounds : Bounds)
    (_hw : 0 < self.weight) :
    ((0 < (computePolygon S piQ cosF sinF self neighbors containerBounds).currentArea →
        (computePolygon S piQ cosF sinF self neighbors containerBounds).pressure
          = (computePolygon S piQ cosF sinF self neighbors containerBounds).targetArea
            / (computePolygon S piQ cosF sinF self neighbors containerBounds).currentArea) ∧
      ((computePolygon S piQ cosF sinF self neighbors containerBounds).currentArea = 0 →
        (computePolygon S piQ cosF sinF self neighbors containerBounds).pressure = 1)) ∧
    (updateTargetArea piQ self).targetArea
      = piQ * self.blobRadius * self.blobRadius * self.weight := by
  refine ⟨⟨?_, ?_⟩, rfl⟩
  · intro hpos
    rw [computePolygon_pressure_def, if_pos hpos]
  · intro hzero
    have hnot : ¬ 0 < (computePolygon S piQ cosF sinF self neighbors containerBounds).currentArea := by
      rw [hzero]
      exact lt_irrefl 0
    rw [computePolygon_pressure_def, if_neg hnot]

/-- Witness for C4: a lone agent of weight 1 and targetArea 5 in the unit
square container gets currentArea 1 and pressure 5 = targetArea/currentArea,
and updateTargetArea yields Math.PI * 25 * 25 * 1 at Math.PI stand-in 3. -/
theorem claim4_pressure_exact_witness :
    ((computePolygon (fun _ => 0) 3 (fun _ => 0) (fun _ => 0)
        ⟨0, 1, vec2 0 0, vec2 0 0, 25, [], 5, 0, 1⟩ [] ⟨0, 0, 1, 1⟩).pressure
      = (computePolygon (fun _ => 0) 3 (fun _ => 0) (fun _ => 0)
          ⟨0, 1, vec2 0 0, vec2 0 0, 25, [], 5, 0, 1⟩ [] ⟨0, 0, 1, 1⟩).targetArea
        / (computePolygon (fun _ => 0) 3 (fun _ => 0) (fun _ => 0)
            ⟨0, 1, vec2 0 0, vec2 0 0, 25, [], 5, 0, 1⟩ [] ⟨0, 0, 1, 1⟩).currentArea) ∧
    (updateTargetArea 3 ⟨0, 1, vec2 0 0, vec2 0 0, 25, [], 5, 0, 1⟩).targetArea
      = 3 * 25 * 25 * 1 :=
  ⟨((claim4_pressure_exact (fun _ => 0) 3 (fun _ => 0) (fun _ => 0)
      ⟨0, 1, vec2 0 0, vec2 0 0, 25, [], 5, 0, 1⟩ [] ⟨0, 0, 1, 1⟩ (by norm_num)).1).1
      (by norm_num [computePolygon, clipNeighborsLoop, smoothPolygon, polygonArea,
        rectToPolygon, vec2, List.rotate]),
   (claim4_pressure_exact (fun _ => 0) 3 (fun _ => 0) (fun _ => 0)
      ⟨0, 1, vec2 0 0, vec2 0 0, 25, [], 5, 0, 1⟩ [] ⟨0, 0, 1, 1⟩ (by norm_num)).2⟩

/-- C9 counterexample: the constructor accepts a non-positive weight without
rejection or clamping: weight -1 is stored as -1 and flows into the negative
targetArea 3 * 625 * (-1) = -1875, contradicting the claimed fail-fast
validation. -/
theorem claim9_counterexample :
    (mkVoroboid 3 ⟨0, -1⟩).weight = -1 ∧
    ¬ 0 < (mkVoroboid 3 ⟨0, -1⟩).weight ∧
    (mkVoroboid 3 ⟨0, -1⟩).targetArea = -1875 :=
  ⟨rfl, by norm_num [mkVoroboid], by norm_num [mkVoroboid]⟩

/-- C9 amended: construction performs no validation: the configured weight is
stored unchanged (non-positive values included) and
targetArea = Math.PI * 25^2 * weight is derived from it directly, so callers
must guarantee positive weight and blobRadius themselves. -/
theorem claim9_no_validation (piQ : ℚ) (config : VoroboidConfig) :
    (mkVoroboid piQ config).weight = config.weight ∧
    (mkVoroboid piQ config).targetArea = piQ * 25 * 25 * config.weight :=
  ⟨rfl, rfl⟩

/-- Squared Euclidean distance: the sqrt-free comparator used to compare
boundary positions exactly. -/
def distSq (a b : Vec2) : ℚ := (a.x - b.x) ^ 2 + (a.y - b.y) ^ 2

/-- Dot product is linear in a scalar multiple of its right argument. -/
theorem dot_mul_right (a b : Vec2) (s : ℚ) : dot a (mul b s) = s * dot a b := by
  simp only [dot, mul]
  ring

/-- Wall polarity tags of the Maxwell variant (src/unnamed part_004 lines
15-20). -/
inductive WallPolarity
  | inward
  | outward
  | solid
  | permeable
  deriving DecidableEq, Repr

/-- Oriented wall segment with polarity and inward normal (src/unnamed
part_004 lines 22-29).  `endPt` renders the source field named end, which is
a keyword in Lean. -/
structure WallM where
  start : Vec2
  endPt : Vec2
  polarity : WallPolarity
  inwardNormal : Vec2
  deriving DecidableEq, Repr

/-- Modelled from the spec: bisector parameter of the canonical tessellation
(spec 4.4 step 3).  The implementing Voroboid file of the Maxwell variant is
absent from src/ (src/voroboids-system.ts calls its three-argument
computePolygon, but the class itself does not survive in the snapshot), so
the parameter follows the spec's words: the weight ratio
myWeight/(myWeight+theirWeight) as the primary term plus the pressure
adjustment (myPressure/(myPressure+theirPressure) - 0.5) scaled by 0.2 as
the secondary term. -/
def bisectorT (myWeight theirWeight myPressure theirPressure : ℚ) : ℚ :=
  myWeight / (myWeight + theirWeight)
    + (myPressure / (myPressure + theirPressure) - 1 / 2) * (2 / 10)

/-- Modelled from the spec: the bisector point lerp(myPos, theirPos, t) of
the canonical tessellation (spec 4.4 step 3). -/
def bisectorPoint (myPos theirPos : Vec2)
    (myWeight theirWeight myPressure theirPressure : ℚ) : Vec2 :=
  lerpVec2 myPos theirPos (bisectorT myWeight theirWeight myPressure theirPressure)

/-- Modelled from the spec: wall-clip normal of the canonical computePolygon
(spec 4.4 step 2): a unit perpendicular of the wall direction, flipped when
it does not already point away from the agent, so that the clip keeps the
agent's side.  The implementing Voroboid file is absent from src/. -/
def wallAwayNormal (S : ℚ → ℚ) (pos : Vec2) (w : WallM) : Vec2 :=
  let wallDir := normalize S (sub w.endPt w.start)
  let perp := vec2 (-wallDir.y) wallDir.x
  if 0 < dot (sub pos w.start) perp then mul perp (-1) else perp

/-- Modelled from the spec: one clipping stage of the canonical
computePolygon with the degeneracy abort (spec 4.4 step 4): clip against each
item in turn; when the working polygon drops below three vertices substitute
the fallback and stop. -/
def clipStage {α : Type} (clipOne : List Vec2 → α → List Vec2)
    (fallback : List Vec2) : List Vec2 → List α → List Vec2
  | polygon, [] => polygon
  | polygon, a :: rest =>
    let clipped := clipOne polygon a
    if clipped.length < 3 then fallback
    else clipStage clipOne fallback clipped rest

/-- Modelled from the spec: the neighbor set of the canonical tessellation,
agents other than self within influence range 6 x blobRadius (spec section 3,
TessellationContext, and 4.4 step 3). -/
def neighborsInRange (S : ℚ → ℚ) (self : Voroboid) (agents : List Voroboid) :
    List Voroboid :=
  agents.filter (fun nb => decide (nb.id ≠ self.id ∧
    magnitude S (sub self.position nb.position) ≤ self.blobRadius * 6))

/-- Modelled from the spec: the canonical tessellation (spec 4.4 steps 1-4):
seed a generous circle of radius 4 x blobRadius (16 segments, the
circleToPolygon default), clip the seed against every wall keeping the
agent's side, then clip against every in-range neighbor's weighted bisector;
a degenerate polygon aborts to the octagon fallback.  The implementing
Voroboid file is absent from src/; its caller src/voroboids-system.ts lines
172-184 passes the full wall list. -/
def computePolygonSpecM (S : ℚ → ℚ) (piQ : ℚ) (cosF sinF : ℚ → ℚ)
    (self : Voroboid) (walls : List WallM) (agents : List Voroboid) : List Vec2 :=
  let fallback := getFallbackPolygon piQ cosF sinF self.position self.blobRadius
  let seed := circleToPolygon piQ cosF sinF self.position (self.blobRadius * 4) 16
  let afterWalls := clipStage
    (fun polygon w => clipPolygonByPlane polygon w.start (wallAwayNormal S self.position w))
    fallback seed walls
  clipStage
    (fun polygon nb => clipPolygonByPlane polygon
      (bisectorPoint self.position nb.position self.weight nb.weight self.pressure nb.pressure)
      (normalize S (sub nb.position self.position)))
    fallback afterWalls (neighborsInRange S self agents)

/-- Spec epsilon for the polarity checks (spec 4.2): 0.1 in velocity units. -/
def POLARITY_EPS : ℚ := 1 / 10

/-- Modelled from the spec: the wall-blocking predicate of the canonical
variant (spec 4.2 shouldBlock).  The polarity-aware agent code is absent from
src/; only the polarity declarations (src/unnamed part_004) and the
polarity-rendering switch in src/voroboids-system.ts survive. -/
def shouldBlock (w : WallM) (velocity : Vec2) : Bool :=
  match w.polarity with
  | WallPolarity.solid => true
  | WallPolarity.permeable => false
  | WallPolarity.inward => decide (dot velocity w.inwardNormal < -POLARITY_EPS)
  | WallPolarity.outward => decide (POLARITY_EPS < dot velocity w.inwardNormal)

/-- Modelled from the spec: hard-contact wall constraint of the canonical
variant (spec 4.2): when the wall currently blocks and the agent is within
the hard-contact margin of the segment, project the agent back to exactly the
margin distance along the away-from-wall direction and remove the inward
velocity component; otherwise position and velocity pass through unchanged. -/
def constrainToWallM (S : ℚ → ℚ) (margin : ℚ) (w : WallM) (pos velocity : Vec2) :
    Vec2 × Vec2 :=
  if shouldBlock w velocity then
    let pd := pointToSegment S pos w.start w.endPt
    if pd.2 < margin then
      let away := normalize S (sub pos pd.1)
      let newPos := add pos (mul away (margin - pd.2))
      let velTowardWall := -(dot velocity away)
      let newVel :=
        if 0 < velTowardWall then add velocity (mul away velTowardWall) else velocity
      (newPos, newVel)
    else (pos, velocity)
  else (pos, velocity)

/-- Canonical minimum center distance (src/unnamed part_004, PHYSICS,
MIN_DIST 45). -/
def MIN_DIST : ℚ := 45

/-- Canonical collision velocity push (src/unnamed part_004, PHYSICS,
COLLISION_PUSH 0.4). -/
def COLLISION_PUSH : ℚ := 4 / 10

/-- Modelled from the spec: pairwise weighted collision resolution of the
canonical static resolveCollisions (spec 4.5); the implementing file is
absent from src/ (src/voroboids-system.ts line 147 calls it as a static
method).  Each agent of an overlapping pair moves along the separation
direction by overlap x 0.5 scaled by the other agent's weight share, and the
velocities are nudged apart by COLLISION_PUSH with the same shares. -/
def resolvePair (S : ℚ → ℚ) (posA posB velA velB : Vec2) (wA wB : ℚ) :
    (Vec2 × Vec2) × (Vec2 × Vec2) :=
  let diff := sub posA posB
  let dist := magnitude S diff
  if 0 < dist ∧ dist < MIN_DIST then
    let overlap := MIN_DIST - dist
    let dir := div diff dist
    let shareA := wB / (wA + wB)
    let shareB := wA / (wA + wB)
    ((add posA (mul dir (overlap * (1 / 2) * shareA)),
      add velA (mul dir (COLLISION_PUSH * shareA))),
     (sub posB (mul dir (overlap * (1 / 2) * shareB)),
      sub velB (mul dir (COLLISION_PUSH * shareB))))
  else ((posA, velA), (posB, velB))

/-- Canonical damping factor (src/unnamed part_004, PHYSICS, DAMPING 0.94). -/
def DAMPING : ℚ := 94 / 100

/-- Canonical speed limit (src/unnamed part_004, PHYSICS, MAX_SPEED 6). -/
def MAX_SPEED : ℚ := 6

/-- Modelled from the spec: the canonical per-frame integration (spec 4.3):
velocity = clampMagnitude((velocity + accumulated forces) * DAMPING,
MAX_SPEED), then position advanced by the new velocity.  The canonical
update implementation is absent from src/ (src/voroboids-system.ts line 143
calls its six-argument form). -/
def integrateStep (S : ℚ → ℚ) (pos velocity forces : Vec2) : Vec2 × Vec2 :=
  let dampedVel := mul (add velocity forces) DAMPING
  let newVel := limit S dampedVel MAX_SPEED
  (add pos newVel, newVel)

/-- Number of vertices produced by circleToPolygon. -/
theorem circleToPolygon_length (piQ : ℚ) (cosF sinF : ℚ → ℚ) (center : Vec2)
    (radius : ℚ) (segments : ℕ) :
    (circleToPolygon piQ cosF sinF center radius segments).length = segments := by
  simp only [circleToPolygon, List.length_map, List.length_range]

/-- A clipping stage keeps at least three vertices when both the input and
the fallback have at least three. -/
theorem clipStage_length {α : Type} (clipOne : List Vec2 → α → List Vec2)
    (fallback : List Vec2) (polygon : List Vec2) (items : List α)
    (hp : 3 ≤ polygon.length) (hf : 3 ≤ fallback.length) :
    3 ≤ (clipStage clipOne fallback polygon items).length := by
  induction items generalizing polygon with
  | nil => simpa [clipStage] using hp
  | cons a rest ih =>
    unfold clipStage
    dsimp only
    split
    · exact hf
    · next hge => exact ih _ (by omega)

/-- C1: the modelled bisector parameter is the weight ratio (primary term)
plus the 0.2-scaled pressure adjustment (secondary term); for weights 2.0 and
0.5 at equal positive pressures the parameter is exactly 4/5 = 2.0/2.5, so
the heavier agent's shared boundary sits strictly closer to the lighter
agent's position than the midpoint does. -/
theorem claim1_bisector_weight_skew (myPos theirPos : Vec2) (p : ℚ)
    (hp : 0 < p) (hne : myPos ≠ theirPos) :
    (∀ wA wB pA pB : ℚ, bisectorT wA wB pA pB
        = wA / (wA + wB) + (pA / (pA + pB) - 1 / 2) * (2 / 10)) ∧
    bisectorT 2 (1 / 2) p p = 4 / 5 ∧
    distSq (bisectorPoint myPos theirPos 2 (1 / 2) p p) theirPos
      < distSq (lerpVec2 myPos theirPos (1 / 2)) theirPos := by
  have h2p : p + p ≠ 0 := by positivity
  have ht : bisectorT 2 (1 / 2) p p = 4 / 5 := by
    unfold bisectorT
    field_simp
    ring
  refine ⟨fun wA wB pA pB => rfl, ht, ?_⟩
  have hx : myPos.x ≠ theirPos.x ∨ myPos.y ≠ theirPos.y := by
    by_contra hcon
    push_neg at hcon
    exact hne (by cases myPos; cases theirPos; simp_all)
  have hD : 0 < (myPos.x - theirPos.x) ^ 2 + (myPos.y - theirPos.y) ^ 2 := by
    rcases hx with h | h
    · have h0 : myPos.x - theirPos.x ≠ 0 := sub_ne_zero.mpr h
      have h1 : 0 < (myPos.x - theirPos.x) ^ 2 :=
        lt_of_le_of_ne (sq_nonneg _) (Ne.symm (pow_ne_zero 2 h0))
      nlinarith [sq_nonneg (myPos.y - theirPos.y)]
    · have h0 : myPos.y - theirPos.y ≠ 0 := sub_ne_zero.mpr h
      have h1 : 0 < (myPos.y - theirPos.y) ^ 2 :=
        lt_of_le_of_ne (sq_nonneg _) (Ne.symm (pow_ne_zero 2 h0))
      nlinarith [sq_nonneg (myPos.x - theirPos.x)]
  have hL : distSq (bisectorPoint myPos theirPos 2 (1 / 2) p p) theirPos
      = ((myPos.x - theirPos.x) ^ 2 + (myPos.y - theirPos.y) ^ 2) / 25 := by
    unfold bisectorPoint
    rw [ht]
    simp only [distSq, lerpVec2, lerp]
    ring
  have hR : distSq (lerpVec2 myPos theirPos (1 / 2)) theirPos
      = ((myPos.x - theirPos.x) ^ 2 + (myPos.y - theirPos.y) ^ 2) / 4 := by
    simp only [distSq, lerpVec2, lerp]
    ring
  rw [hL, hR]
  linarith

/-- Witness for C1: agents at (0,0) and (40,0), weights 2.0 and 0.5, both at
pressure 1: the bisector parameter is 4/5 and the bisector point is strictly
closer to the lighter agent than the midpoint is. -/
theorem claim1_bisector_weight_skew_witness :
    bisectorT 2 (1 / 2) 1 1 = 4 / 5 ∧
    distSq (bisectorPoint (vec2 0 0) (vec2 40 0) 2 (1 / 2) 1 1) (vec2 40 0)
      < distSq (lerpVec2 (vec2 0 0) (vec2 40 0) (1 / 2)) (vec2 40 0) :=
  ⟨(claim1_bisector_weight_skew (vec2 0 0) (vec2 40 0) 1 (by norm_num)
      (by simp [vec2])).2.1,
   (claim1_bisector_weight_skew (vec2 0 0) (vec2 40 0) 1 (by norm_num)
      (by simp [vec2])).2.2⟩

/-- C2: the modelled canonical tessellation starts from the generous
16-segment circle of radius 4 x blobRadius around the agent's position and
clips it against every wall before any neighbor bisector clip; every chosen
wall normal keeps the agent's side (the agent satisfies the kept-side
inequality), and the result always retains at least three vertices. -/
theorem claim2_seed_and_wall_clips (S : ℚ → ℚ) (piQ : ℚ) (cosF sinF : ℚ → ℚ)
    (self : Voroboid) (walls : List WallM) (agents : List Voroboid) :
    computePolygonSpecM S piQ cosF sinF self walls agents
      = clipStage
          (fun polygon nb => clipPolygonByPlane polygon
            (bisectorPoint self.position nb.position self.weight nb.weight
              self.pressure nb.pressure)
            (normalize S (sub nb.position self.position)))
          (getFallbackPolygon piQ cosF sinF self.position self.blobRadius)
          (clipStage
            (fun polygon w => clipPolygonByPlane polygon w.start
              (wallAwayNormal S self.position w))
            (getFallbackPolygon piQ cosF sinF self.position self.blobRadius)
            (circleToPolygon piQ cosF sinF self.position (self.blobRadius * 4) 16)
            walls)
          (neighborsInRange S self agents) ∧
    (∀ (pos : Vec2) (w : WallM), dot (sub pos w.start) (wallAwayNormal S pos w) ≤ 0) ∧
    3 ≤ (computePolygonSpecM S piQ cosF sinF self walls agents).length := by
  refine ⟨rfl, ?_, ?_⟩
  · intro pos w
    unfold wallAwayNormal
    dsimp only
    split
    · next hgt =>
      rw [dot_mul_right]
      linarith
    · next hle =>
      exact le_of_not_lt hle
  · unfold computePolygonSpecM
    apply clipStage_length
    · apply clipStage_length
      · rw [circleToPolygon_length]
        omega
      · rw [getFallbackPolygon_length]
        omega
    · rw [getFallbackPolygon_length]
      omega

/-- C3: a wall with solid polarity blocks every velocity; a wall with
permeable polarity never triggers the hard-contact position/velocity
correction, whatever the approach speed. -/
theorem claim3_polarity_block (S : ℚ → ℚ) (margin : ℚ) (w : WallM)
    (pos velocity : Vec2) :
    (w.polarity = WallPolarity.solid → shouldBlock w velocity = true) ∧
    (w.polarity = WallPolarity.permeable →
      constrainToWallM S margin w pos velocity = (pos, velocity)) := by
  constructor
  · intro h
    simp [shouldBlock, h]
  · intro h
    simp [constrainToWallM, shouldBlock, h]

/-- Witness for C3: a concrete solid wall blocks a downward velocity, and a
concrete permeable wall leaves a nearby fast agent untouched. -/
theorem claim3_polarity_block_witness :
    shouldBlock ⟨vec2 0 0, vec2 10 0, WallPolarity.solid, vec2 0 1⟩ (vec2 0 (-5)) = true ∧
    constrainToWallM (fun _ => 0) 15
        ⟨vec2 0 0, vec2 10 0, WallPolarity.permeable, vec2 0 1⟩
        (vec2 3 1) (vec2 0 (-9))
      = (vec2 3 1, vec2 0 (-9)) :=
  ⟨(claim3_polarity_block (fun _ => 0) 15
      ⟨vec2 0 0, vec2 10 0, WallPolarity.solid, vec2 0 1⟩ (vec2 0 0) (vec2 0 (-5))).1 rfl,
   (claim3_polarity_block (fun _ => 0) 15
      ⟨vec2 0 0, vec2 10 0, WallPolarity.permeable, vec2 0 1⟩ (vec2 3 1) (vec2 0 (-9))).2 rfl⟩

/-- C5: for a pair closer than MIN_DIST with positive separation distance,
agent A is displaced along the separation direction by
overlap x 0.5 x weightB/(weightA+weightB) (the other agent's weight share in
the numerator), agent B by the mirrored share, and with equal positive
weights the two displacements are exactly equal and opposite. -/
theorem claim5_weighted_collision (S : ℚ → ℚ) (posA posB velA velB : Vec2)
    (wA wB : ℚ) (h0 : 0 < magnitude S (sub posA posB))
    (hm : magnitude S (sub posA posB) < MIN_DIST) :
    ((resolvePair S posA posB velA velB wA wB).1.1
        = add posA (mul (div (sub posA posB) (magnitude S (sub posA posB)))
            ((MIN_DIST - magnitude S (sub posA posB)) * (1 / 2) * (wB / (wA + wB)))) ∧
      (resolvePair S posA posB velA velB wA wB).2.1
        = sub posB (mul (div (sub posA posB) (magnitude S (sub posA posB)))
            ((MIN_DIST - magnitude S (sub posA posB)) * (1 / 2) * (wA / (wA + wB))))) ∧
    (wA = wB → 0 < wA →
      sub (resolvePair S posA posB velA velB wA wB).1.1 posA
        = mul (sub (resolvePair S posA posB velA velB wA wB).2.1 posB) (-1)) := by
  have hcond : 0 < magnitude S (sub posA posB) ∧ magnitude S (sub posA posB) < MIN_DIST :=
    ⟨h0, hm⟩
  unfold resolvePair
  dsimp only
  rw [if_pos hcond]
  refine ⟨⟨rfl, rfl⟩, ?_⟩
  intro heq hwpos
  subst heq
  cases posA
  cases posB
  simp only [add, sub, mul, div, Vec2.mk.injEq]
  constructor <;> ring

/-- Witness for C5: agents 40 < 45 apart at (0,0) and (40,0) with equal
weights 2: positions are displaced by the weighted shares and the two
displacements cancel exactly. -/
theorem claim5_weighted_collision_witness :
    ((resolvePair (fun q => if q = 1600 then 40 else 0)
        (vec2 0 0) (vec2 40 0) (vec2 0 0) (vec2 0 0) 2 2).1.1
      = add (vec2 0 0) (mul (div (sub (vec2 0 0) (vec2 40 0))
          (magnitude (fun q => if q = 1600 then 40 else 0) (sub (vec2 0 0) (vec2 40 0))))
          ((MIN_DIST - magnitude (fun q => if q = 1600 then 40 else 0)
              (sub (vec2 0 0) (vec2 40 0))) * (1 / 2) * (2 / (2 + 2))))) ∧
    (sub (resolvePair (fun q => if q = 1600 then 40 else 0)
        (vec2 0 0) (vec2 40 0) (vec2 0 0) (vec2 0 0) 2 2).1.1 (vec2 0 0)
      = mul (sub (resolvePair (fun q => if q = 1600 then 40 else 0)
          (vec2 0 0) (vec2 40 0) (vec2 0 0) (vec2 0 0) 2 2).2.1 (vec2 40 0)) (-1)) :=
  ⟨(claim5_weighted_collision (fun q => if q = 1600 then 40 else 0)
      (vec2 0 0) (vec2 40 0) (vec2 0 0) (vec2 0 0) 2 2
      (by norm_num [magnitude, sub, vec2])
      (by norm_num [magnitude, sub, vec2, MIN_DIST])).1.1,
   (claim5_weighted_collision (fun q => if q = 1600 then 40 else 0)
      (vec2 0 0) (vec2 40 0) (vec2 0 0) (vec2 0 0) 2 2
      (by norm_num [magnitude, sub, vec2])
      (by norm_num [magnitude, sub, vec2, MIN_DIST])).2 rfl (by norm_num)⟩

/-- C6: the modelled canonical integration produces the new velocity as
clampMagnitude((velocity + accumulated forces) * DAMPING, MAX_SPEED), with
the multiplicative damping applied after force accumulation and before the
speed clamp, and then advances the position by exactly the new velocity. -/
theorem claim6_integration_order (S : ℚ → ℚ) (pos velocity forces : Vec2) :
    (integrateStep S pos velocity forces).2
        = limit S (mul (add velocity forces) DAMPING) MAX_SPEED ∧
    (integrateStep S pos velocity forces).1
        = add pos (limit S (mul (add velocity forces) DAMPING) MAX_SPEED) :=
  ⟨rfl, rfl⟩

end Voroboids
